import Mathlib

/-!
Verification of the spartan-ecdsa prover glue code
(`packages/prover/src/wasm.rs`) against its specification.

The reader side (`load_witness_from_bin_reader`, `read_field`) is embedded
over byte lists; machine integers are `Nat` with explicit `% 2 ^ 32` /
`% 2 ^ 64` where the Rust code truncates or wraps.  Following §7/§9 of the
specification, every `panic!` / `.unwrap()` abort of the reference code is
embedded as a typed error of `WasmError`, so that the functions are total.
The external Spartan backend (libspartan, merlin, bincode) is kept opaque:
`prove` / `verify` are parametrised by a `ProofSystem` record exposing
exactly the operations the Rust source invokes on the collaborator, and the
transcript is represented by the domain-label bytes handed to it.
-/

set_option maxRecDepth 10000

namespace SpartanWasm

/-- Modulus of the scalar field `F1` of `G1 = secq256k1`: the group order of
secq256k1 equals the base-field prime of secp256k1, `2^256 - 2^32 - 977`. -/
def fieldModulus : Nat := 2 ^ 256 - 2 ^ 32 - 977

/-- A field element of `F1`, kept as its canonical representative.
`ff::PrimeField::from_repr` only accepts canonical (< modulus) encodings,
so every value of this type is canonical by construction. -/
abbrev F : Type := {n : Nat // n < fieldModulus}

/-- Typed error taxonomy of §7; the reference code aborts (`panic!` /
`.unwrap()`) at each of these points, which the spec maps to typed errors. -/
inductive WasmError where
  | unexpectedEof
  | malformedHeader
  | unsupportedVersion
  | invalidSectionCount
  | invalidSectionType
  | invalidSectionSize
  | invalidFieldByteSize
  | nonCanonicalFieldElement
  | truncatedPublicInput
  | indexOutOfBounds
  | assignmentError
  | circuitDeserializationError
  | proofDeserializationError
  deriving DecidableEq

instance {ε α : Type} [DecidableEq ε] [DecidableEq α] : DecidableEq (Except ε α) := fun x y =>
  match x, y with
  | .error a, .error b =>
    if h : a = b then .isTrue (by rw [h]) else .isFalse (by intro hh; cases hh; exact h rfl)
  | .ok a, .ok b =>
    if h : a = b then .isTrue (by rw [h]) else .isFalse (by intro hh; cases hh; exact h rfl)
  | .error _, .ok _ => .isFalse (by intro hh; cases hh)
  | .ok _, .error _ => .isFalse (by intro hh; cases hh)

/-- Little-endian interpretation of a byte list (as in `byteorder`'s
`LittleEndian` reads and `ff`'s little-endian `Repr`). -/
def toNatLE : List Nat → Nat
  | [] => 0
  | b :: bs => b + 256 * toNatLE bs

/-- Little-endian encoding of `n` on `k` bytes. -/
def bytesLE : Nat → Nat → List Nat
  | 0, _ => []
  | k + 1, n => n % 256 :: bytesLE k (n / 256)

/-- 4-byte little-endian encoding (a `u32` on the wire). -/
def u32LE (n : Nat) : List Nat := bytesLE 4 n

/-- 8-byte little-endian encoding (a `u64` on the wire). -/
def u64LE (n : Nat) : List Nat := bytesLE 8 n

/-- The 4 magic bytes of the witness format: `"wtns"`. -/
def wtnsMagic : List Nat := [119, 116, 110, 115]

/-- The transcript domain-label bytes `b"nizk_example"`, used identically by
`prove` and `verify` in the source. -/
def nizkLabel : List Nat := [110, 105, 122, 107, 95, 101, 120, 97, 109, 112, 108, 101]

/-- Reading `n` bytes from the stream (`Read::read_exact`, or `n` successive
`read_u8` calls); any short read is an `unexpectedEof`. -/
def readBytes : Nat → List Nat → Except WasmError (List Nat × List Nat)
  | 0, s => .ok ([], s)
  | _ + 1, [] => .error .unexpectedEof
  | n + 1, b :: s =>
    match readBytes n s with
    | .error e => .error e
    | .ok (bs, rest) => .ok (b :: bs, rest)

/-- `reader.read_u32::<LittleEndian>()`. -/
def readU32 (s : List Nat) : Except WasmError (Nat × List Nat) :=
  match readBytes 4 s with
  | .error e => .error e
  | .ok (bs, rest) => .ok (toNatLE bs, rest)

/-- `reader.read_u64::<LittleEndian>()`. -/
def readU64 (s : List Nat) : Except WasmError (Nat × List Nat) :=
  match readBytes 8 s with
  | .error e => .error e
  | .ok (bs, rest) => .ok (toNatLE bs, rest)

/-- `Fr::from_repr`: interprets 32 little-endian bytes and, per the
`ff::PrimeField` contract, fails unless the value is canonical
(strictly below the modulus). -/
def fromRepr (bs : List Nat) : Option F :=
  if h : toNatLE bs < fieldModulus then some ⟨toNatLE bs, h⟩ else none

/-- `Fr::to_repr`: the canonical 32-byte little-endian encoding. -/
def toRepr (x : F) : List Nat := bytesLE 32 x.val

/-- `read_field`: reads exactly 32 bytes (one `read_u8` per byte of
`Fr::zero().to_repr()`) and converts with `Fr::from_repr(repr).unwrap()`;
the unwrap aborts on a non-canonical encoding. -/
def read_field (s : List Nat) : Except WasmError (F × List Nat) :=
  match readBytes 32 s with
  | .error e => .error e
  | .ok (bs, rest) =>
    match fromRepr bs with
    | some x => .ok (x, rest)
    | none => .error .nonCanonicalFieldElement

/-- The element loop `for _ in 0..witness_len { result.push(read_field(..)?) }`. -/
def readElements : Nat → List Nat → Except WasmError (List F × List Nat)
  | 0, s => .ok ([], s)
  | n + 1, s =>
    match read_field s with
    | .error e => .error e
    | .ok (x, rest) =>
      match readElements n rest with
      | .error e => .error e
      | .ok (xs, rest2) => .ok (x :: xs, rest2)

/-- Continuation of `load_witness_from_bin_reader` after the field-size check:
modulus bytes (consumed, unchecked), witness length, section 2 header and the
element loop.  `fieldSize` is the value read from the file (guarded to be 32
by the caller); the size check multiplies in wrapping `u32` arithmetic before
the `as u64` cast, hence the `% 2 ^ 32`. -/
def loadSections (fieldSize : Nat) (s : List Nat) : Except WasmError (List F) :=
  match readBytes fieldSize s with
  | .error e => .error e
  | .ok (_prime, s1) =>
    match readU32 s1 with
    | .error e => .error e
    | .ok (witnessLen, s2) =>
      match readU32 s2 with
      | .error e => .error e
      | .ok (secType2, s3) =>
        if secType2 ≠ 2 then .error .invalidSectionType else
        match readU64 s3 with
        | .error e => .error e
        | .ok (secSize2, s4) =>
          if secSize2 ≠ witnessLen * fieldSize % 2 ^ 32 then .error .invalidSectionSize else
          match readElements witnessLen s4 with
          | .error e => .error e
          | .ok (result, _) => .ok result

/-- `load_witness_from_bin_reader`: magic, version, section count, section 1
header, then `loadSections`.  Trailing bytes after the elements are ignored,
exactly as in the source. -/
def load_witness_from_bin_reader (s : List Nat) : Except WasmError (List F) :=
  match readBytes 4 s with
  | .error e => .error e
  | .ok (hdr, s1) =>
    if hdr ≠ wtnsMagic then .error .malformedHeader else
    match readU32 s1 with
    | .error e => .error e
    | .ok (version, s2) =>
      if version > 2 then .error .unsupportedVersion else
      match readU32 s2 with
      | .error e => .error e
      | .ok (numSections, s3) =>
        if numSections ≠ 2 then .error .invalidSectionCount else
        match readU32 s3 with
        | .error e => .error e
        | .ok (secType, s4) =>
          if secType ≠ 1 then .error .invalidSectionType else
          match readU64 s4 with
          | .error e => .error e
          | .ok (secSize, s5) =>
            if secSize ≠ 4 + 32 + 4 then .error .invalidSectionSize else
            match readU32 s5 with
            | .error e => .error e
            | .ok (fieldSize, s6) =>
              if fieldSize ≠ 32 then .error .invalidFieldByteSize else
              loadSections fieldSize s6

/-- One iteration step `i` of the public-input loop
`for i in 0..num_inputs { input[i] = public_inputs[i*32..(i+1)*32].try_into().unwrap(); }`
over the fixed array `let mut input = [[0u8; 32]]`.  Rust evaluates the
right-hand side of an assignment first, so the slice bound check (panic ↦
`truncatedPublicInput`) precedes the array index bound check (panic ↦
`indexOutOfBounds`). -/
def publicLoop (publicInputs : List Nat) : Nat → Nat → List (List Nat) →
    Except WasmError (List (List Nat))
  | _, 0, arr => .ok arr
  | i, steps + 1, arr =>
    if (i + 1) * 32 ≤ publicInputs.length then
      if i < arr.length then
        publicLoop publicInputs (i + 1) steps (arr.set i ((publicInputs.drop (i * 32)).take 32))
      else .error .indexOutOfBounds
    else .error .truncatedPublicInput

/-- The public-input assignment bytes built by `prove` / `verify`: the loop
above run for `numInputs` steps over the one-element array `[[0u8; 32]]`. -/
def buildPublicChunks (publicInputs : List Nat) (numInputs : Nat) :
    Except WasmError (List (List Nat)) :=
  publicLoop publicInputs 0 numInputs [List.replicate 32 0]

/-- The external collaborator contract of §6: the operations of libspartan
(`Instance`, `Assignment::new`, `NIZKGens::new`, `NIZK::prove`,
`NIZK::verify`), bincode serialization, and the merlin transcript (represented
by the domain-label bytes passed to prove/verify). -/
structure ProofSystem (Inst Asgn Gens Pf : Type) where
  getNumCons : Inst → Nat
  getNumVars : Inst → Nat
  getNumInputs : Inst → Nat
  nizkGens : Nat → Nat → Nat → Gens
  assignmentNew : List (List Nat) → Except Unit Asgn
  nizkProve : Inst → Asgn → Asgn → Gens → List Nat → Pf
  nizkVerify : Pf → Inst → Asgn → List Nat → Gens → Bool
  deserializeInstance : List Nat → Option Inst
  serializeProof : Pf → List Nat
  deserializeProof : List Nat → Option Pf

/-- `prove(circuit, vars, public_inputs)`: load the witness, build the private
assignment, deserialize the circuit, derive the generators from its three
dimensions, build the public assignment, and run the backend prover with the
fixed transcript label; returns the serialized proof. -/
def prove {Inst Asgn Gens Pf : Type} (ps : ProofSystem Inst Asgn Gens Pf)
    (circuit vars publicInputs : List Nat) : Except WasmError (List Nat) :=
  match load_witness_from_bin_reader vars with
  | .error e => .error e
  | .ok witness =>
    match ps.assignmentNew (witness.map toRepr) with
    | .error _ => .error .assignmentError
    | .ok assignment =>
      match ps.deserializeInstance circuit with
      | none => .error .circuitDeserializationError
      | some inst =>
        match buildPublicChunks publicInputs (ps.getNumInputs inst) with
        | .error e => .error e
        | .ok chunks =>
          match ps.assignmentNew chunks with
          | .error _ => .error .assignmentError
          | .ok input =>
            .ok (ps.serializeProof (ps.nizkProve inst assignment input
              (ps.nizkGens (ps.getNumCons inst) (ps.getNumVars inst) (ps.getNumInputs inst))
              nizkLabel))

/-- `verify(circuit, proof, public_input)`: deserialize circuit and proof,
derive the generators from the instance dimensions, build the public
assignment, and return the backend verifier's boolean (its `.is_ok()`). -/
def verify {Inst Asgn Gens Pf : Type} (ps : ProofSystem Inst Asgn Gens Pf)
    (circuit proof publicInput : List Nat) : Except WasmError Bool :=
  match ps.deserializeInstance circuit with
  | none => .error .circuitDeserializationError
  | some inst =>
    match ps.deserializeProof proof with
    | none => .error .proofDeserializationError
    | some pf =>
      match buildPublicChunks publicInput (ps.getNumInputs inst) with
      | .error e => .error e
      | .ok chunks =>
        match ps.assignmentNew chunks with
        | .error _ => .error .assignmentError
        | .ok inputs =>
          .ok (ps.nizkVerify pf inst inputs nizkLabel
            (ps.nizkGens (ps.getNumCons inst) (ps.getNumVars inst) (ps.getNumInputs inst)))

/-- Modelled from the spec: the §6 binary witness layout (no encoder exists in
the repository sources).  Magic `"wtns"`, version 2, section count 2,
section 1 of size 40 declaring field width 32 and the field modulus, the
element count, then section 2 of declared size `witness_len * 32` holding the
canonical 32-byte little-endian element encodings in order. -/
def encodeWitness (xs : List F) : List Nat :=
  wtnsMagic ++ u32LE 2 ++ u32LE 2 ++ u32LE 1 ++ u64LE 40 ++ u32LE 32 ++
    bytesLE 32 fieldModulus ++ u32LE xs.length ++ u32LE 2 ++
    u64LE (xs.length * 32) ++ xs.flatMap toRepr

/-- The zero of the field. -/
def fzero : F := ⟨0, by norm_num [fieldModulus]⟩

/-- The multiplicative identity of the field. -/
def fone : F := ⟨1, by norm_num [fieldModulus]⟩

/-! ### Arithmetic and reader lemmas -/

lemma mod_mul_aux (n m : Nat) : n % (256 * m) = n % 256 + 256 * (n / 256 % m) := by
  rcases Nat.eq_zero_or_pos m with hm | hm
  · subst hm
    simp only [Nat.mul_zero, Nat.mod_zero]
    omega
  · have key : n = n % 256 + 256 * (n / 256 % m) + 256 * m * (n / 256 / m) := by
      have e1 : 256 * (n / 256) + n % 256 = n := Nat.div_add_mod n 256
      have e2 : m * (n / 256 / m) + n / 256 % m = n / 256 := Nat.div_add_mod (n / 256) m
      calc n = 256 * (n / 256) + n % 256 := e1.symm
        _ = 256 * (m * (n / 256 / m) + n / 256 % m) + n % 256 := by rw [e2]
        _ = n % 256 + 256 * (n / 256 % m) + 256 * m * (n / 256 / m) := by ring
    conv_lhs => rw [key]
    rw [Nat.add_mul_mod_self_left]
    have h1 : n % 256 < 256 := Nat.mod_lt _ (by norm_num)
    have h2 : n / 256 % m < m := Nat.mod_lt _ hm
    have h3 : 256 * (n / 256 % m) ≤ 256 * (m - 1) := Nat.mul_le_mul_left _ (by omega)
    exact Nat.mod_eq_of_lt (by omega)

lemma toNatLE_bytesLE (k n : Nat) : toNatLE (bytesLE k n) = n % 256 ^ k := by
  induction k generalizing n with
  | zero => simp [bytesLE, toNatLE, Nat.mod_one]
  | succ k ih =>
    rw [bytesLE, toNatLE, ih, pow_succ']
    exact (mod_mul_aux n (256 ^ k)).symm

lemma length_bytesLE (k n : Nat) : (bytesLE k n).length = k := by
  induction k generalizing n with
  | zero => simp [bytesLE]
  | succ k ih => simp [bytesLE, ih]

lemma toNatLE_u32LE (n : Nat) : toNatLE (u32LE n) = n % 2 ^ 32 := by
  rw [u32LE, toNatLE_bytesLE]; norm_num

lemma toNatLE_u64LE (n : Nat) : toNatLE (u64LE n) = n % 2 ^ 64 := by
  rw [u64LE, toNatLE_bytesLE]; norm_num

lemma length_u32LE (n : Nat) : (u32LE n).length = 4 := by
  rw [u32LE]; exact length_bytesLE 4 n

lemma length_u64LE (n : Nat) : (u64LE n).length = 8 := by
  rw [u64LE]; exact length_bytesLE 8 n

lemma readBytes_exact {n : Nat} (xs rest : List Nat) (h : xs.length = n) :
    readBytes n (xs ++ rest) = .ok (xs, rest) := by
  subst h
  induction xs with
  | nil => simp [readBytes]
  | cons b bs ih => simp [readBytes, ih]

lemma readBytes_take_drop (n : Nat) (s : List Nat) (h : n ≤ s.length) :
    readBytes n s = .ok (s.take n, s.drop n) := by
  conv_lhs => rw [← List.take_append_drop n s]
  exact readBytes_exact _ _ (by rw [List.length_take]; omega)

lemma readU32_u32LE (n : Nat) (rest : List Nat) :
    readU32 (u32LE n ++ rest) = .ok (n % 2 ^ 32, rest) := by
  simp only [readU32, readBytes_exact (u32LE n) rest (length_u32LE n), toNatLE_u32LE]

lemma readU64_u64LE (n : Nat) (rest : List Nat) :
    readU64 (u64LE n ++ rest) = .ok (n % 2 ^ 64, rest) := by
  simp only [readU64, readBytes_exact (u64LE n) rest (length_u64LE n), toNatLE_u64LE]

lemma length_toRepr (x : F) : (toRepr x).length = 32 := by
  rw [toRepr]; exact length_bytesLE 32 x.val

lemma toNatLE_toRepr (x : F) : toNatLE (toRepr x) = x.val := by
  rw [toRepr, toNatLE_bytesLE, Nat.mod_eq_of_lt]
  exact lt_trans x.2 (by decide)

lemma read_field_toRepr (x : F) (rest : List Nat) :
    read_field (toRepr x ++ rest) = .ok (x, rest) := by
  simp only [read_field, readBytes_exact (toRepr x) rest (length_toRepr x), fromRepr,
    toNatLE_toRepr]
  rw [dif_pos x.2]

lemma readElements_encode (xs : List F) (rest : List Nat) :
    readElements xs.length (xs.flatMap toRepr ++ rest) = .ok (xs, rest) := by
  induction xs with
  | nil => simp [readElements]
  | cons x xs ih =>
    simp only [List.flatMap_cons, List.length_cons, List.append_assoc, readElements,
      read_field_toRepr, ih]

lemma loadSections_layout (modulus : List Nat) (wl secSize : Nat) (elems : List Nat)
    (hm : modulus.length = 32) :
    loadSections 32 (modulus ++ (u32LE wl ++ (u32LE 2 ++ (u64LE secSize ++ elems)))) =
      if secSize % 2 ^ 64 ≠ wl % 2 ^ 32 * 32 % 2 ^ 32 then .error .invalidSectionSize
      else
        match readElements (wl % 2 ^ 32) elems with
        | .error e => .error e
        | .ok (result, _) => .ok result := by
  simp only [loadSections, readBytes_exact modulus _ hm, readU32_u32LE, readU64_u64LE]
  norm_num

lemma loadWitness_layout (ver : Nat) (modulus : List Nat) (wl secSize : Nat) (elems : List Nat)
    (hver : ver % 2 ^ 32 ≤ 2) (hm : modulus.length = 32) :
    load_witness_from_bin_reader (wtnsMagic ++ u32LE ver ++ u32LE 2 ++ u32LE 1 ++ u64LE 40 ++
        u32LE 32 ++ modulus ++ u32LE wl ++ u32LE 2 ++ u64LE secSize ++ elems) =
      if secSize % 2 ^ 64 ≠ wl % 2 ^ 32 * 32 % 2 ^ 32 then .error .invalidSectionSize
      else
        match readElements (wl % 2 ^ 32) elems with
        | .error e => .error e
        | .ok (result, _) => .ok result := by
  simp only [List.append_assoc]
  simp only [load_witness_from_bin_reader]
  rw [show ∀ rest, readBytes 4 (wtnsMagic ++ rest) = .ok (wtnsMagic, rest) from
    fun rest => @readBytes_exact 4 wtnsMagic rest rfl]
  simp only [readU32_u32LE, readU64_u64LE]
  rw [if_neg (by omega : ¬ ver % 2 ^ 32 > 2)]
  rw [if_neg (by norm_num : ¬ ((2 : Nat) % 2 ^ 32 ≠ 2))]
  rw [if_neg (by norm_num : ¬ ((1 : Nat) % 2 ^ 32 ≠ 1))]
  rw [if_neg (by norm_num : ¬ ((40 : Nat) % 2 ^ 64 ≠ 4 + 32 + 4))]
  rw [if_neg (by norm_num : ¬ ((32 : Nat) % 2 ^ 32 ≠ 32))]
  rw [show (32 : Nat) % 2 ^ 32 = 32 from by norm_num]
  exact loadSections_layout modulus wl secSize elems hm

/-! ### Claim theorems -/

/-- Claim C1 (amended): serializing `N` field elements into the §6 witness
layout and running the reader on the bytes yields exactly the original
elements in order, for every `N < 2 ^ 27` (so that `N * 32` fits in 32 bits;
this covers `N ∈ {0, 1, 1000}`).  For `N ≥ 2 ^ 27` the wrapping 32-bit size
check rejects the honestly-encoded file, see the counterexample. -/
theorem witness_roundtrip (xs : List F) (h : xs.length < 2 ^ 27) :
    load_witness_from_bin_reader (encodeWitness xs) = .ok xs := by
  rw [encodeWitness]
  rw [loadWitness_layout 2 (bytesLE 32 fieldModulus) xs.length (xs.length * 32)
    (xs.flatMap toRepr) (by norm_num) (length_bytesLE 32 fieldModulus)]
  have h1 : xs.length % 2 ^ 32 = xs.length := Nat.mod_eq_of_lt (by omega)
  have h2 : xs.length * 32 % 2 ^ 64 = xs.length * 32 := Nat.mod_eq_of_lt (by omega)
  have h3 : xs.length * 32 % 2 ^ 32 = xs.length * 32 := Nat.mod_eq_of_lt (by omega)
  rw [if_neg (by rw [h1, h2, h3]; exact fun hc => hc rfl)]
  rw [h1]
  rw [show xs.flatMap toRepr = xs.flatMap toRepr ++ [] from (List.append_nil _).symm]
  rw [readElements_encode]

/-- Witness for C1: the concrete scenario of §8 — a file holding the single
element 1 parses back to the one-element sequence `[1]`. -/
theorem witness_roundtrip_witness :
    load_witness_from_bin_reader (encodeWitness [fone]) = .ok [fone] :=
  witness_roundtrip [fone] (by norm_num)

/-- Counterexample to C1 as stated: for `N = 2 ^ 27` the spec-layout file
declares `section2_size = N * 32 = 2 ^ 32`, but the reader compares it with
the u32-wrapped product `0`, so the honestly-encoded file is rejected with
`invalidSectionSize` instead of round-tripping. -/
theorem witness_roundtrip_overflow_cex :
    load_witness_from_bin_reader (encodeWitness (List.replicate (2 ^ 27) fzero)) =
      .error .invalidSectionSize := by
  rw [encodeWitness, List.length_replicate]
  rw [loadWitness_layout 2 (bytesLE 32 fieldModulus) (2 ^ 27) (2 ^ 27 * 32)
    ((List.replicate (2 ^ 27) fzero).flatMap toRepr) (by norm_num)
    (length_bytesLE 32 fieldModulus)]
  rw [if_pos (by norm_num)]

/-- Claim C6 (amended): a buffer that reaches section 2 whose declared
section size differs from the wrapped product `witness_len * 32 % 2 ^ 32`
fails with `invalidSectionSize` regardless of the remaining bytes.  (As
originally stated — with the true product `witness_len * field_byte_size` —
the claim is false, see the counterexample.) -/
theorem section2_size_mismatch (ver : Nat) (modulus : List Nat) (wl secSize : Nat)
    (rest : List Nat) (hver : ver ≤ 2) (hm : modulus.length = 32) (hwl : wl < 2 ^ 32)
    (hss : secSize < 2 ^ 64) (hne : secSize ≠ wl * 32 % 2 ^ 32) :
    load_witness_from_bin_reader (wtnsMagic ++ u32LE ver ++ u32LE 2 ++ u32LE 1 ++ u64LE 40 ++
        u32LE 32 ++ modulus ++ u32LE wl ++ u32LE 2 ++ u64LE secSize ++ rest) =
      .error .invalidSectionSize := by
  rw [loadWitness_layout ver modulus wl secSize rest (by omega) hm]
  rw [if_pos (by rw [Nat.mod_eq_of_lt hss, Nat.mod_eq_of_lt hwl]; exact hne)]

/-- Witness for C6 (amended): one witness element declared, section size
field 7 instead of 32, enough trailing bytes or not — rejected. -/
theorem section2_size_mismatch_witness :
    load_witness_from_bin_reader (wtnsMagic ++ u32LE 2 ++ u32LE 2 ++ u32LE 1 ++ u64LE 40 ++
        u32LE 32 ++ List.replicate 32 0 ++ u32LE 1 ++ u32LE 2 ++ u64LE 7 ++ []) =
      .error .invalidSectionSize :=
  section2_size_mismatch 2 (List.replicate 32 0) 1 7 [] (by norm_num) (by simp)
    (by norm_num) (by norm_num) (by norm_num)

/-- A buffer whose section-2 declared size (0) differs from the true byte
count `2 ^ 27 * 32` but matches its u32-wrapped value, with no element bytes
after the header. -/
def sizeWrapBuffer : List Nat :=
  wtnsMagic ++ u32LE 2 ++ u32LE 2 ++ u32LE 1 ++ u64LE 40 ++ u32LE 32 ++
    List.replicate 32 0 ++ u32LE (2 ^ 27) ++ u32LE 2 ++ u64LE 0 ++ []

lemma readElements_succ_nil (n : Nat) : readElements (n + 1) [] = .error .unexpectedEof := by
  simp [readElements, read_field, readBytes]

/-- Counterexample to C6 as stated: `sizeWrapBuffer` reaches section 2 with a
declared size (0) different from `witness_len * field_byte_size = 2 ^ 27 * 32`,
yet the reader does not fail with `invalidSectionSize` — the wrapped check
passes and the reader fails later with `unexpectedEof` while reading
elements. -/
theorem section2_size_mismatch_cex :
    toNatLE (u64LE 0) ≠ 2 ^ 27 * 32 ∧
    load_witness_from_bin_reader sizeWrapBuffer = .error .unexpectedEof ∧
    WasmError.unexpectedEof ≠ WasmError.invalidSectionSize := by
  refine ⟨by decide, ?_, by decide⟩
  rw [sizeWrapBuffer]
  rw [loadWitness_layout 2 (List.replicate 32 0) (2 ^ 27) 0 [] (by norm_num) (by simp)]
  rw [if_neg (by norm_num)]
  rw [show (2 : Nat) ^ 27 % 2 ^ 32 = 134217727 + 1 from by norm_num]
  rw [readElements_succ_nil]

/-- Claim C10: the section-2 size check compares the declared 64-bit size
against the 32-bit wrapped product `witness_len * 32 % 2 ^ 32`; for
`witness_len = 2 ^ 27` it therefore accepts the declared size 0, which is not
the true byte count `2 ^ 27 * 32 = 2 ^ 32`, and parsing succeeds. -/
theorem size_check_wraps :
    (0 : Nat) ≠ 2 ^ 27 * 32 ∧ 2 ^ 27 * 32 % 2 ^ 32 = 0 ∧
    load_witness_from_bin_reader (wtnsMagic ++ u32LE 2 ++ u32LE 2 ++ u32LE 1 ++ u64LE 40 ++
        u32LE 32 ++ bytesLE 32 fieldModulus ++ u32LE (2 ^ 27) ++ u32LE 2 ++ u64LE 0 ++
        (List.replicate (2 ^ 27) fzero).flatMap toRepr) =
      .ok (List.replicate (2 ^ 27) fzero) := by
  refine ⟨by norm_num, by norm_num, ?_⟩
  have haux : ∀ xs : List F, xs.length = 2 ^ 27 →
      load_witness_from_bin_reader (wtnsMagic ++ u32LE 2 ++ u32LE 2 ++ u32LE 1 ++ u64LE 40 ++
          u32LE 32 ++ bytesLE 32 fieldModulus ++ u32LE (2 ^ 27) ++ u32LE 2 ++ u64LE 0 ++
          xs.flatMap toRepr) = .ok xs := by
    intro xs hxs
    rw [loadWitness_layout 2 (bytesLE 32 fieldModulus) (2 ^ 27) 0 (xs.flatMap toRepr)
      (by norm_num) (length_bytesLE 32 fieldModulus)]
    rw [if_neg (by norm_num)]
    rw [show (2 : Nat) ^ 27 % 2 ^ 32 = xs.length from by rw [hxs]; norm_num]
    rw [show xs.flatMap toRepr = xs.flatMap toRepr ++ [] from (List.append_nil _).symm]
    rw [readElements_encode]
  exact haux (List.replicate (2 ^ 27) fzero) (List.length_replicate _ _)

/-- Claim C4: a buffer of at least 4 bytes whose first 4 bytes differ from
the `"wtns"` magic is rejected with `malformedHeader`; a buffer with correct
magic whose little-endian version field exceeds 2 is rejected with
`unsupportedVersion`. -/
theorem header_rejection (s : List Nat) :
    (4 ≤ s.length → s.take 4 ≠ wtnsMagic →
      load_witness_from_bin_reader s = .error .malformedHeader) ∧
    (8 ≤ s.length → s.take 4 = wtnsMagic → 2 < toNatLE ((s.drop 4).take 4) →
      load_witness_from_bin_reader s = .error .unsupportedVersion) := by
  constructor
  · intro h4 hmg
    simp only [load_witness_from_bin_reader, readBytes_take_drop 4 s h4]
    rw [if_pos hmg]
  · intro h8 hmg hv
    simp only [load_witness_from_bin_reader, readBytes_take_drop 4 s (by omega)]
    rw [if_neg (by simp [hmg])]
    simp only [readU32, readBytes_take_drop 4 (s.drop 4) (by rw [List.length_drop]; omega)]
    rw [if_pos hv]

/-- Witness for C4: a 4-byte zero buffer is rejected as `malformedHeader`,
and a correct-magic buffer declaring version 3 as `unsupportedVersion`. -/
theorem header_rejection_witness :
    load_witness_from_bin_reader [0, 0, 0, 0] = .error .malformedHeader ∧
    load_witness_from_bin_reader (wtnsMagic ++ u32LE 3) = .error .unsupportedVersion :=
  ⟨(header_rejection [0, 0, 0, 0]).1 (by decide) (by decide),
   (header_rejection (wtnsMagic ++ u32LE 3)).2 (by decide) (by decide) (by decide)⟩

/-- Claim C5: a buffer with valid magic and supported version whose
little-endian section-count field is not 2 is rejected with
`invalidSectionCount`, regardless of the bytes that follow. -/
theorem section_count_rejection (s : List Nat) (h12 : 12 ≤ s.length)
    (hmg : s.take 4 = wtnsMagic) (hv : toNatLE ((s.drop 4).take 4) ≤ 2)
    (hc : toNatLE ((s.drop 8).take 4) ≠ 2) :
    load_witness_from_bin_reader s = .error .invalidSectionCount := by
  simp only [load_witness_from_bin_reader, readBytes_take_drop 4 s (by omega)]
  rw [if_neg (by simp [hmg])]
  simp only [readU32, readBytes_take_drop 4 (s.drop 4) (by rw [List.length_drop]; omega)]
  rw [if_neg (by omega)]
  simp only [List.drop_drop, Nat.reduceAdd,
    readBytes_take_drop 4 (s.drop 8) (by rw [List.length_drop]; omega)]
  rw [if_pos hc]

/-- Witness for C5: valid magic and version 2 but section count 5. -/
theorem section_count_rejection_witness :
    load_witness_from_bin_reader (wtnsMagic ++ u32LE 2 ++ u32LE 5) =
      .error .invalidSectionCount :=
  section_count_rejection (wtnsMagic ++ u32LE 2 ++ u32LE 5) (by decide) (by decide)
    (by decide) (by decide)

/-- Claim C8 (amended): the field-element decoder consumes exactly 32 bytes,
interprets them little-endian, and succeeds exactly when the value is a
canonical representative (strictly below the modulus); for a non-canonical
32-byte input `Fr::from_repr(..).unwrap()` fails, so — contrary to the claim
as stated — the decode-failure branch is reachable and canonicity IS
validated. -/
theorem read_field_canonicity (bs rest : List Nat) (h : bs.length = 32) :
    read_field (bs ++ rest) =
      if hc : toNatLE bs < fieldModulus then .ok (⟨toNatLE bs, hc⟩, rest)
      else .error .nonCanonicalFieldElement := by
  simp only [read_field, readBytes_exact bs rest h, fromRepr]
  by_cases hc : toNatLE bs < fieldModulus
  · rw [dif_pos hc, dif_pos hc]
  · rw [dif_neg hc, dif_neg hc]

/-- Witness for C8 (amended): 32 zero bytes decode to the field zero, with
the trailing stream untouched. -/
theorem read_field_canonicity_witness :
    read_field (List.replicate 32 0 ++ [7]) = .ok (fzero, [7]) := by
  rw [read_field_canonicity (List.replicate 32 0) [7] (List.length_replicate _ _)]
  decide

/-- Counterexample to C8 as stated: the all-255 32-byte input encodes
`2 ^ 256 - 1 ≥ fieldModulus`, and the decoder takes the failure branch. -/
theorem read_field_canonicity_cex :
    read_field (List.replicate 32 255) = .error .nonCanonicalFieldElement := by decide

lemma readBytes_prefix (n : Nat) (pre X : List Nat) (h : n ≤ pre.length) :
    readBytes n (pre ++ X) = .ok (pre.take n, pre.drop n ++ X) := by
  conv_lhs => rw [show pre ++ X = pre.take n ++ (pre.drop n ++ X) from by
    rw [← List.append_assoc, List.take_append_drop]]
  exact readBytes_exact _ _ (by rw [List.length_take]; omega)

lemma loadSections_modulus (m1 m2 rest : List Nat) (h1 : m1.length = 32)
    (h2 : m2.length = 32) :
    loadSections 32 (m1 ++ rest) = loadSections 32 (m2 ++ rest) := by
  simp only [loadSections, readBytes_exact m1 rest h1, readBytes_exact m2 rest h2]

lemma loadWitness_split28 (pre X : List Nat) (hpre : pre.length = 28) :
    load_witness_from_bin_reader (pre ++ X) =
      (if pre.take 4 ≠ wtnsMagic then .error .malformedHeader else
       if toNatLE ((pre.drop 4).take 4) > 2 then .error .unsupportedVersion else
       if toNatLE ((pre.drop 8).take 4) ≠ 2 then .error .invalidSectionCount else
       if toNatLE ((pre.drop 12).take 4) ≠ 1 then .error .invalidSectionType else
       if toNatLE ((pre.drop 16).take 8) ≠ 4 + 32 + 4 then .error .invalidSectionSize else
       if toNatLE ((pre.drop 24).take 4) ≠ 32 then .error .invalidFieldByteSize else
       loadSections (toNatLE ((pre.drop 24).take 4)) X) := by
  simp only [load_witness_from_bin_reader, readU32, readU64, List.drop_drop, Nat.reduceAdd,
    readBytes_prefix 4 pre X (by omega),
    readBytes_prefix 4 (pre.drop 4) X (by rw [List.length_drop]; omega),
    readBytes_prefix 4 (pre.drop 8) X (by rw [List.length_drop]; omega),
    readBytes_prefix 4 (pre.drop 12) X (by rw [List.length_drop]; omega),
    readBytes_prefix 8 (pre.drop 16) X (by rw [List.length_drop]; omega),
    readBytes_prefix 4 (pre.drop 24) X (by rw [List.length_drop]; omega),
    show pre.drop 28 = [] from List.drop_eq_nil_of_le (by omega), List.nil_append]

/-- Claim C9: two witness files that agree everywhere except in the 32 bytes
of the section-1 field-modulus field produce identical results — the modulus
bytes are consumed but never inspected. -/
theorem modulus_bytes_ignored (pre m1 m2 rest : List Nat) (hpre : pre.length = 28)
    (h1 : m1.length = 32) (h2 : m2.length = 32) :
    load_witness_from_bin_reader (pre ++ (m1 ++ rest)) =
      load_witness_from_bin_reader (pre ++ (m2 ++ rest)) := by
  rw [loadWitness_split28 pre (m1 ++ rest) hpre, loadWitness_split28 pre (m2 ++ rest) hpre]
  split_ifs with hA hB hC hD hE hF
  · rfl
  · rfl
  · rfl
  · rfl
  · rfl
  · rfl
  · rw [not_ne_iff.mp hF]
    exact loadSections_modulus m1 m2 rest h1 h2

/-- Witness for C9: an all-zero modulus field and an all-255 modulus field
give the same parse result on an otherwise identical empty-witness file. -/
theorem modulus_bytes_ignored_witness :
    load_witness_from_bin_reader ((wtnsMagic ++ u32LE 2 ++ u32LE 2 ++ u32LE 1 ++ u64LE 40 ++
        u32LE 32) ++ (List.replicate 32 0 ++ (u32LE 0 ++ u32LE 2 ++ u64LE 0))) =
      load_witness_from_bin_reader ((wtnsMagic ++ u32LE 2 ++ u32LE 2 ++ u32LE 1 ++ u64LE 40 ++
        u32LE 32) ++ (List.replicate 32 255 ++ (u32LE 0 ++ u32LE 2 ++ u64LE 0))) :=
  modulus_bytes_ignored _ _ _ _ (by decide) (by decide) (by decide)

/-- Claim C3 (code bug): the public-input loop writes into the fixed
one-element array `[[0u8; 32]]`, so with `num_inputs = 2` and a 64-byte
buffer the write at index 1 is out of bounds (an index panic, not
`truncatedPublicInput`), and with `num_inputs = 0` the assignment still holds
one zero chunk rather than zero entries.  The truncation rule the claim
states does hold for the in-capacity case `num_inputs = 1`. -/
theorem buildPublicChunks_fixed_capacity :
    buildPublicChunks (List.replicate 64 0) 2 = .error .indexOutOfBounds ∧
    buildPublicChunks [] 0 = .ok [List.replicate 32 0] ∧
    buildPublicChunks (List.replicate 31 0) 1 = .error .truncatedPublicInput :=
  ⟨by decide, by decide, by decide⟩

/-- Claim C7: `verify` returns a boolean for well-formed inputs — the
backend's cryptographic rejection surfaces as the value `false`, never as an
error — while structurally malformed circuit or proof bytes surface as
`circuitDeserializationError` / `proofDeserializationError` respectively,
never as the value `false`. -/
theorem verify_error_discipline {Inst Asgn Gens Pf : Type}
    (ps : ProofSystem Inst Asgn Gens Pf) (circuit proof publicInput : List Nat) :
    (ps.deserializeInstance circuit = none →
      verify ps circuit proof publicInput = .error .circuitDeserializationError) ∧
    (∀ inst, ps.deserializeInstance circuit = some inst → ps.deserializeProof proof = none →
      verify ps circuit proof publicInput = .error .proofDeserializationError) ∧
    (∀ inst pf chunks inputs, ps.deserializeInstance circuit = some inst →
      ps.deserializeProof proof = some pf →
      buildPublicChunks publicInput (ps.getNumInputs inst) = .ok chunks →
      ps.assignmentNew chunks = .ok inputs →
      verify ps circuit proof publicInput =
        .ok (ps.nizkVerify pf inst inputs nizkLabel
          (ps.nizkGens (ps.getNumCons inst) (ps.getNumVars inst) (ps.getNumInputs inst)))) := by
  refine ⟨?_, ?_, ?_⟩
  · intro h
    simp [verify, h]
  · intro inst h1 h2
    simp [verify, h1, h2]
  · intro inst pf chunks inputs h1 h2 h3 h4
    simp [verify, h1, h2, h3, h4]

/-- A concrete instantiation of the collaborator record, used to exercise the
orchestrator theorems on closed inputs: every nonempty byte string
deserializes to the unit instance with no public inputs, proofs carry no data
and always verify, assignments are the raw chunk lists. -/
def dummyPS : ProofSystem Unit (List (List Nat)) Unit Unit where
  getNumCons _ := 1
  getNumVars _ := 1
  getNumInputs _ := 0
  nizkGens _ _ _ := ()
  assignmentNew l := .ok l
  nizkProve _ _ _ _ _ := ()
  nizkVerify _ _ _ _ _ := true
  deserializeInstance bs := if bs = [] then none else some ()
  serializeProof _ := []
  deserializeProof _ := some ()

/-- Witness for C7: with the concrete collaborator, empty circuit bytes give
the circuit deserialization error, and well-formed inputs give the backend's
boolean. -/
theorem verify_error_discipline_witness :
    verify dummyPS [] [] [] = .error .circuitDeserializationError ∧
    verify dummyPS [1] [] [] = .ok true := by
  constructor
  · exact (verify_error_discipline dummyPS [] [] []).1 (by decide)
  · exact (verify_error_discipline dummyPS [1] [] []).2.2 () () [List.replicate 32 0]
      [List.replicate 32 0] (by decide) (by decide) (by decide) (by decide)

/-- Claim C2: if `prove` succeeds on a circuit, witness file and public
inputs, and the witness satisfies the instance's constraints, then `verify`
on the same circuit bytes, the returned proof bytes and the same public
inputs returns `true`.  The proof relies exactly on what the claim names:
both operations seed the transcript with the same fixed label bytes
(`nizkLabel`) and derive the generators from the same three instance
dimensions; completeness and serialization round-tripping of the external
backend are hypotheses of the collaborator contract. -/
theorem prove_verify_agreement {Inst Asgn Gens Pf : Type}
    (ps : ProofSystem Inst Asgn Gens Pf) (Sat : Inst → Asgn → Asgn → Prop)
    (complete : ∀ inst w pub g lbl, Sat inst w pub →
      ps.nizkVerify (ps.nizkProve inst w pub g lbl) inst pub lbl g = true)
    (roundtrip : ∀ pf, ps.deserializeProof (ps.serializeProof pf) = some pf)
    (circuit vars publicInputs proofBytes : List Nat)
    (hprove : prove ps circuit vars publicInputs = .ok proofBytes)
    (hsat : ∀ inst witness asgn chunks input,
      load_witness_from_bin_reader vars = .ok witness →
      ps.assignmentNew (witness.map toRepr) = .ok asgn →
      ps.deserializeInstance circuit = some inst →
      buildPublicChunks publicInputs (ps.getNumInputs inst) = .ok chunks →
      ps.assignmentNew chunks = .ok input →
      Sat inst asgn input) :
    verify ps circuit proofBytes publicInputs = .ok true := by
  simp only [prove] at hprove
  cases hw : load_witness_from_bin_reader vars with
  | error e => simp [hw] at hprove
  | ok witness =>
  simp only [hw] at hprove
  cases ha : ps.assignmentNew (witness.map toRepr) with
  | error u => simp [ha] at hprove
  | ok asgn =>
  simp only [ha] at hprove
  cases hinst : ps.deserializeInstance circuit with
  | none => simp [hinst] at hprove
  | some inst =>
  simp only [hinst] at hprove
  cases hchunks : buildPublicChunks publicInputs (ps.getNumInputs inst) with
  | error e => simp [hchunks] at hprove
  | ok chunks =>
  simp only [hchunks] at hprove
  cases hinput : ps.assignmentNew chunks with
  | error u => simp [hinput] at hprove
  | ok input =>
  simp only [hinput] at hprove
  have hpb : proofBytes = ps.serializeProof (ps.nizkProve inst asgn input
      (ps.nizkGens (ps.getNumCons inst) (ps.getNumVars inst) (ps.getNumInputs inst))
      nizkLabel) := by
    cases hprove
    rfl
  subst hpb
  simp only [verify, hinst, roundtrip, hchunks, hinput]
  rw [complete inst asgn input
    (ps.nizkGens (ps.getNumCons inst) (ps.getNumVars inst) (ps.getNumInputs inst))
    nizkLabel (hsat inst witness asgn chunks input hw ha hinst hchunks hinput)]

/-- A well-formed empty-witness file (zero declared elements). -/
def emptyWtnsFile : List Nat :=
  wtnsMagic ++ u32LE 2 ++ u32LE 2 ++ u32LE 1 ++ u64LE 40 ++ u32LE 32 ++
    List.replicate 32 0 ++ u32LE 0 ++ u32LE 2 ++ u64LE 0

/-- Witness for C2: with the concrete collaborator, proving over the
empty-witness file succeeds and verifying the resulting proof bytes
returns true. -/
theorem prove_verify_agreement_witness :
    prove dummyPS [1] emptyWtnsFile [] = .ok [] ∧
    verify dummyPS [1] [] [] = .ok true := by
  constructor
  · decide
  · exact prove_verify_agreement dummyPS (fun _ _ _ => True)
      (fun _ _ _ _ _ _ => rfl) (fun _ => rfl) [1] emptyWtnsFile [] []
      (by decide) (fun _ _ _ _ _ _ _ _ _ _ => trivial)

end SpartanWasm
